import Mathlib

/-!
Verification development for the `kernel` runtime-coordination toolkit
(distributed lock, leader-election watchdog, job scheduler, readiness
barrier, lifecycle orchestrator).  Each Go component relevant to the
claims is shallowly embedded as a pure Lean function or a small-step
interpreter over an explicit schedule; machine integers stay abstract
(Nat/Int), channels become lists of delivered values, and scheduling /
select nondeterminism becomes an explicit oracle argument.
-/

namespace Kernel

/-! ## DistributedLock (src/utils/custom_context.go, package locker)

The Redis store is modelled as a partial map from key to the stored
lock record `(value, ttlMillis)`.  The three Lua scripts run atomically
server-side, so each is a pure function from store state to
`(new store, script integer result)`.  Network failures (the `err` leg
of the Go wrappers) are orthogonal to what the claims state and are not
modelled: the model describes what the script does when it executes. -/

/-- The Redis key space: a key holds `some (value, pttl)` or nothing. -/
def Store := String → Option (String × Nat)

/-- The constant `lockKeyPrefix` that `RedisLocker` prepends to every
election name (renamed here). -/
def lockKeyPref : String := "github.com/PavelAgarkov/service-pkg-block-prefix-"

/-- `lockScript`: `SET KEYS[1] ARGV[1] NX PX ARGV[2]` — set only if absent;
returns 1 on success, 0 when the key already exists. -/
def evalLockScript (st : Store) (k v : String) (ttl : Nat) : Store × Nat :=
  match st k with
  | some _ => (st, 0)
  | none => (fun k' => if k' = k then some (v, ttl) else st k', 1)

/-- `unlockScript`: `if GET KEYS[1] == ARGV[1] then DEL KEYS[1] else 0`.
`GET` of an absent key is nil, which never equals a string argument. -/
def evalUnlockScript (st : Store) (k v : String) : Store × Nat :=
  match st k with
  | some r =>
      if r.1 = v then (fun k' => if k' = k then none else st k', 1)
      else (st, 0)
  | none => (st, 0)

/-- `extendTTLScript`: `if GET KEYS[1] == ARGV[1] then PEXPIRE KEYS[1] ARGV[2] else 0`. -/
def evalExtendTTLScript (st : Store) (k v : String) (ttl : Nat) : Store × Nat :=
  match st k with
  | some r =>
      if r.1 = v then (fun k' => if k' = k then some (r.1, ttl) else st k', 1)
      else (st, 0)
  | none => (st, 0)

/-- `RedisLocker.Lock`: runs the lock script on the prefixed key and
returns `result == 1`. -/
def RedisLocker.Lock (st : Store) (key value : String) (expiration : Nat) :
    Store × Bool :=
  let r := evalLockScript st (lockKeyPref ++ key) value expiration
  (r.1, r.2 == 1)

/-- `RedisLocker.Unlock`: runs the unlock script on the prefixed key and
returns `result == 1`. -/
def RedisLocker.Unlock (st : Store) (key value : String) : Store × Bool :=
  let r := evalUnlockScript st (lockKeyPref ++ key) value
  (r.1, r.2 == 1)

/-- `RedisLocker.ExtendLockTTL`: runs the extend script on the prefixed key
and returns `result == 1`. -/
def RedisLocker.ExtendLockTTL (st : Store) (key value : String) (expiration : Nat) :
    Store × Bool :=
  let r := evalExtendTTLScript st (lockKeyPref ++ key) value expiration
  (r.1, r.2 == 1)

/-- The holder token currently stored for election `key` (after prefixing). -/
def holderOf (st : Store) (key : String) : Option String :=
  (st (lockKeyPref ++ key)).map Prod.fst

/-! ## Shutdown hook list (src/unnamed/part_003, package application)

The singly-linked list of `shutdown{priority, name, next, shutdownFunc}`
nodes is a Lean list; the closure identity of `shutdownFunc` is an `id`
tag so that execution order is observable. -/

/-- One registered shutdown hook: `shutdown{priority, name, shutdownFunc}`,
with `id` standing for the identity of the Go closure. -/
structure SHook where
  priority : Int
  name : String
  id : Nat
deriving DecidableEq, Repr

/-- The walk of `App.RegisterShutdown` after the head has been passed:
advance `current` while `current.next != nil && current.next.priority <= priority`,
then splice the new node after `current`. -/
def insertShutdownRest (n : SHook) : List SHook → List SHook
  | [] => [n]
  | h :: t =>
      if h.priority ≤ n.priority then h :: insertShutdownRest n t
      else n :: h :: t

/-- `App.RegisterShutdown`: if the list is empty or the head's priority is
strictly greater than the new priority, the node becomes the new head;
otherwise it is spliced after the last node whose priority is `≤` the new
priority. -/
def insertShutdown (n : SHook) (l : List SHook) : List SHook :=
  match l with
  | [] => [n]
  | h :: t =>
      if h.priority > n.priority then n :: h :: t
      else h :: insertShutdownRest n t

/-- `App.shutdownAllAndDeleteAllCanceled`: pop and run the head until the
list is empty.  Returns the drained list (always `[]` on exit of the loop)
and the hook ids in execution order. -/
def shutdownDrain : List SHook → List SHook × List Nat
  | [] => ([], [])
  | h :: t =>
      let r := shutdownDrain t
      (r.1, h.id :: r.2)

/-- Ascending-priority order of the hook list, as the Go invariant states it. -/
def sortedByPriority : List SHook → Bool
  | [] => true
  | [_] => true
  | a :: b :: t => decide (a.priority ≤ b.priority) && sortedByPriority (b :: t)

/-! ## Leader-election watchdog (src/unnamed/part_008, package watchdog)

`RedisWatchdogLeader.Elect` spawns one goroutine owning a `watcher`
channel (buffer 8).  The goroutine is embedded as a small-step
interpreter: the schedule fixes, for each loop iteration, which select
branch fires, the boolean result of the Redis call, and — because the
helper `send` is a `select` between `<-ctx.Done()` and `watcher <- event`
with no default — which branch that inner select takes once the context
is cancelled (Go chooses uniformly among ready cases).  While the
context is live, `send` always delivers: the only other case,
`<-ctx.Done()`, is not ready, and a send blocked on a full buffer waits
for the consumer.  The channel itself is the list of delivered events in
order. -/

/-- The two event values sent on the watcher channel:
`LostAcquire = 1`, `TakenAcquire = 2`. -/
inductive WEvent
  | lostAcquire
  | takenAcquire
deriving DecidableEq, Repr

/-- The `send` helper of `Elect`: `select { case <-ctx.Done(): return;
case watcher <- event: }`.  `cancelNow` records the context becoming
cancelled before this select; `pick` resolves the select when the
`ctx.Done()` case is ready (`true` = the channel-send case wins). -/
structure SendOracle where
  cancelNow : Bool
  pick : Bool
deriving DecidableEq, Repr

/-- One iteration of the watchdog's `for { select { ... } }` loop. -/
inductive ElectStep
  /-- The `<-ctx.Done()` branch fires; `cancelNow` records the context
  becoming cancelled before this iteration, `pick` resolves the final
  `send(LostAcquire)`'s select. -/
  | ctxDone (cancelNow : Bool) (pick : Bool)
  /-- The `<-ticker.C` branch fires; `lockOk` is the boolean result of
  the `Lock` / `ExtendLockTTL` call performed this iteration, and `send`
  resolves the event send if one happens. -/
  | tick (cancelNow : Bool) (lockOk : Bool) (send : SendOracle)
deriving DecidableEq, Repr

/-- Observable state of one `Elect` goroutine: leadership flag, whether
the context has been cancelled, the events delivered to the watcher
channel in order, the number of `Unlock` calls made, and whether the
deferred `close(watcher)` has run (the goroutine returned). -/
structure ElectState where
  isLeader : Bool
  ctxDone : Bool
  events : List WEvent
  unlocks : Nat
  closed : Bool
deriving DecidableEq, Repr

/-- Execute `send(event)`: the context may become cancelled just before
the select; if it is cancelled both cases can be ready and `pick`
decides, otherwise the event is always delivered. -/
def electSend (st : ElectState) (e : WEvent) (o : SendOracle) : ElectState :=
  let d := st.ctxDone || o.cancelNow
  if d && !o.pick then { st with ctxDone := d }
  else { st with ctxDone := d, events := st.events ++ [e] }

/-- One iteration of the watchdog loop.  A `ctxDone` step with
`isLeader` runs `Unlock`, clears the flag, attempts the final
`send(LostAcquire)` and returns (running the deferred `close`); with
`!isLeader` the case body falls through without returning.  A `tick`
step attempts `Lock` when not leader (sending `TakenAcquire` on
success) and `ExtendLockTTL` when leader (sending `LostAcquire` on
failure). -/
def electStep (st : ElectState) (s : ElectStep) : ElectState :=
  if st.closed then st
  else
    match s with
    | .ctxDone cancelNow pick =>
        let st := { st with ctxDone := st.ctxDone || cancelNow }
        if st.isLeader then
          let st := { st with unlocks := st.unlocks + 1, isLeader := false }
          let st := electSend st .lostAcquire ⟨false, pick⟩
          { st with closed := true }
        else st
    | .tick cancelNow lockOk o =>
        let st := { st with ctxDone := st.ctxDone || cancelNow }
        if !st.isLeader then
          if lockOk then electSend { st with isLeader := true } .takenAcquire o
          else st
        else
          if lockOk then st
          else electSend { st with isLeader := false } .lostAcquire o

/-- A whole run of the `Elect` goroutine: the result of the immediate
`Lock` before the loop, the oracle for the initial `send(TakenAcquire)`,
and the loop iterations. -/
structure ElectRun where
  initLockOk : Bool
  initSend : SendOracle
  steps : List ElectStep
deriving DecidableEq, Repr

/-- State after the pre-loop part of the goroutine body: fresh token,
immediate `Lock`, and on success `isLeader = true` plus
`send(TakenAcquire)`. -/
def electInit (r : ElectRun) : ElectState :=
  let st : ElectState := ⟨false, false, [], 0, false⟩
  if r.initLockOk then electSend { st with isLeader := true } .takenAcquire r.initSend
  else st

/-- The full run: pre-loop part, then the scheduled loop iterations. -/
def electExec (r : ElectRun) : ElectState :=
  r.steps.foldl electStep (electInit r)

/-- A schedule is valid when every `ctxDone` loop step occurs only while
the context is actually cancelled (the `<-ctx.Done()` case must be ready
for that branch to fire). -/
def electValidFrom (st : ElectState) : List ElectStep → Bool
  | [] => true
  | s :: rest =>
      (match s with
       | .ctxDone cancelNow _ => st.ctxDone || cancelNow
       | .tick _ _ _ => true)
      && electValidFrom (electStep st s) rest

/-- Validity of a whole run's schedule. -/
def electValid (r : ElectRun) : Bool :=
  electValidFrom (electInit r) r.steps

/-- A run in which the context is never cancelled: no `ctxDone` steps
and no `cancelNow` flag anywhere. -/
def electNoCancel (r : ElectRun) : Bool :=
  !r.initSend.cancelNow &&
  r.steps.all fun s =>
    match s with
    | .ctxDone _ _ => false
    | .tick cancelNow _ o => !cancelNow && !o.cancelNow

/-- The other event: `TakenAcquire ↦ LostAcquire` and back. -/
def flipW : WEvent → WEvent
  | .takenAcquire => .lostAcquire
  | .lostAcquire => .takenAcquire

/-- The strictly alternating event pattern expected to start with `e`. -/
def altFrom (e : WEvent) : List WEvent → Bool
  | [] => true
  | x :: xs => x == e && altFrom (flipW e) xs

/-! ## Job scheduler (src/locker/contract.go, package scheduler)

`JobScheduler.exec` is embedded as a pure function of the job's static
configuration and a per-execution oracle (which branch the entry select
takes, whether the context-error recheck fires, and how the job
function itself terminates).  Go's `context.WithTimeout(parent, d)`
semantics — done when the parent is done or the timeout elapses — is
modelled by `CtxParent` / `derivedCtxDone`. -/

/-- `StopMode`: `StopImmediate = iota (0)`, `StopGraceful = 1`. -/
inductive StopMode
  | stopImmediate
  | stopGraceful
deriving DecidableEq, Repr

/-- Static part of a `job` record relevant to `exec`. -/
structure Job where
  name : String
  tick : Nat
  deadline : Nat
  stopMode : StopMode
deriving DecidableEq, Repr

/-- How one invocation of the job's function `fn` terminates. -/
inductive FnOutcome
  | retNil
  | retErr (e : String)
  | panicked (v : String)
deriving DecidableEq, Repr

/-- Per-execution oracle for `exec`: `doneAtEntry` — the entry
`select` takes the `<-j.ctx.Done()` case (only ready when the job
context is cancelled) instead of acquiring the rate slot;
`errAtRecheck` — `j.ctx.Err() != nil` at the recheck after acquiring
the slot; `outcome` — how `j.fn` terminates if invoked. -/
structure ExecIn where
  doneAtEntry : Bool
  errAtRecheck : Bool
  outcome : FnOutcome
deriving DecidableEq, Repr

/-- The parent from which `exec` derives the per-execution
`WithTimeout` context. -/
inductive CtxParent
  | jobCtx
  | background
deriving DecidableEq, Repr

/-- Go `context.WithTimeout(parent, d)`: the derived context is done
iff the parent context is done or the timeout has elapsed.
`context.Background()` is never done. -/
def derivedCtxDone (p : CtxParent) (jobCtxDone timedOut : Bool) : Bool :=
  match p with
  | .jobCtx => jobCtxDone || timedOut
  | .background => timedOut

/-- The model of Go's `ctx.Err()` result for a cancelled context. -/
def ctxCanceledErr : String := "context canceled"

/-- Observable result of one `exec` call: the returned error, whether
`j.fn` was invoked, the parent of the `WithTimeout` context passed to
`j.fn` (`none` when `fn` was not reached), and the error string logged
by the recover branch, if any. -/
structure ExecResult where
  err : Option String
  invoked : Bool
  derived : Option CtxParent
  loggedPanic : Option String
deriving DecidableEq, Repr

/-- `JobScheduler.exec`: entry select (`ctx.Done` vs rate slot), context
recheck, then `switch j.stopMode` — `StopImmediate` derives the timeout
context from `j.ctx`, `StopGraceful` from `context.Background()` — and
the deferred `recover` turns a panic `r` into the returned error
`fmt.Errorf("panic in job: %v", r)` while logging
`fmt.Errorf("panic in job %s: %v", j.name, r)`. -/
def JobScheduler.exec (j : Job) (i : ExecIn) : ExecResult :=
  if i.doneAtEntry then ⟨some ctxCanceledErr, false, none, none⟩
  else if i.errAtRecheck then ⟨some ctxCanceledErr, false, none, none⟩
  else
    let parent : CtxParent :=
      match j.stopMode with
      | .stopImmediate => .jobCtx
      | .stopGraceful => .background
    match i.outcome with
    | .retNil => ⟨none, true, some parent, none⟩
    | .retErr e => ⟨some e, true, some parent, none⟩
    | .panicked v =>
        ⟨some ("panic in job: " ++ v), true, some parent,
         some ("panic in job " ++ j.name ++ ": " ++ v)⟩

/-- One iteration of `JobScheduler.run`'s select: the job context is
cancelled (return), or the ticker fires with a given `exec` oracle. -/
inductive RunStep
  | ctxDone
  | tick (i : ExecIn)
deriving DecidableEq, Repr

/-- `JobScheduler.run`: loop until the job context is cancelled; each
tick calls `exec` and at most logs the error — no error or panic result
terminates the loop.  Returns the results of the executed ticks. -/
def JobScheduler.run (j : Job) : List RunStep → List ExecResult
  | [] => []
  | .ctxDone :: _ => []
  | .tick i :: rest => JobScheduler.exec j i :: JobScheduler.run j rest

/-- `JobScheduler` state relevant to `Add`: the `started` flag and the
`goroutines` map, modelled as an association list keyed by job name. -/
structure SchedState where
  started : Bool
  jobs : List (String × Job)
deriving DecidableEq, Repr

/-- `JobConfiguration` fields used by `Add`. -/
structure JobConfiguration where
  name : String
  tick : Nat
  deadline : Nat
  stopMode : StopMode
deriving DecidableEq, Repr

/-- `JobScheduler.Add`: error if already started, error if the name is
already registered, otherwise store the new `job` under its name. -/
def JobScheduler.Add (s : SchedState) (cfg : JobConfiguration) :
    SchedState × Option String :=
  if s.started then
    (s, some ("scheduler.Add(" ++ cfg.name ++ "): already started"))
  else if (s.jobs.lookup cfg.name).isSome then
    (s, some ("scheduler.Add(" ++ cfg.name ++ "): job already exists"))
  else
    ({ s with
        jobs := s.jobs ++ [(cfg.name, ⟨cfg.name, cfg.tick, cfg.deadline, cfg.stopMode⟩)] },
     none)

/-! ## Readiness barrier (src/unnamed/part_000, package readiness_barrier)

The barrier is embedded as a sequential interpreter over the externally
visible operations.  Its state: the `running` atomic, the
`readinessFlag` atomic, and the buffered `signals` channel (capacity 4)
as a queue.  The listener goroutine's consumption of one signal is the
`listen` operation; it can only run while the listener is live, i.e.
while `running` is true. -/

/-- The two `toggleSignal` values, `"ready"` and `"not_ready"`. -/
inductive ToggleSignal
  | readyToggle
  | notReadyToggle
deriving DecidableEq, Repr

/-- Barrier state: `running` atomic, `readinessFlag` atomic, and the
queued contents of the `signals` channel. -/
structure RBState where
  running : Bool
  ready : Bool
  queue : List ToggleSignal
deriving DecidableEq, Repr

/-- `NewReadinessBarrier`: fresh channel, `setNotReady()`. -/
def RBState.init : RBState := ⟨false, false, []⟩

/-- `ReadinessBarrier.Start`: CAS `running` false→true; a failed CAS is
a no-op.  (The launched listener is modelled by `rbListen` steps.) -/
def rbStart (st : RBState) : RBState :=
  if st.running then st else { st with running := true }

/-- `ReadinessBarrier.Stop`: CAS `running` true→false (failed CAS:
no-op), cancel and join the listener, drain the `signals` buffer, then
`setNotReady()`. -/
def rbStop (st : RBState) : RBState :=
  if !st.running then st
  else { running := false, ready := false, queue := [] }

/-- `ReadinessBarrier.SendSignalCtx`: error when not running; otherwise
enqueue when the buffer has space (capacity 4), or fail with the
context-cancelled error when the caller gives up waiting. -/
def rbSendSignal (st : RBState) (sig : ToggleSignal) : RBState × Option String :=
  if !st.running then (st, some "not running")
  else if st.queue.length < 4 then ({ st with queue := st.queue ++ [sig] }, none)
  else (st, some "context cancelled while sending signal")

/-- One step of the listener goroutine `listen`: consume the next queued
signal and set / clear the readiness flag accordingly.  Only possible
while the listener is live (`running`). -/
def rbListen (st : RBState) : RBState :=
  if !st.running then st
  else
    match st.queue with
    | [] => st
    | sig :: rest =>
        match sig with
        | .readyToggle => { st with ready := true, queue := rest }
        | .notReadyToggle => { st with ready := false, queue := rest }

/-- `ReadinessBarrier.IsReady`: atomic load of the flag. -/
def rbIsReady (st : RBState) : Bool := st.ready

/-- The externally schedulable operations on a barrier. -/
inductive RBOp
  | start
  | stop
  | send (sig : ToggleSignal)
  | listen
deriving DecidableEq, Repr

/-- Apply one operation to the barrier state. -/
def rbApply (st : RBState) : RBOp → RBState
  | .start => rbStart st
  | .stop => rbStop st
  | .send sig => (rbSendSignal st sig).1
  | .listen => rbListen st

/-- Run a sequence of operations from a given state. -/
def rbRun (st : RBState) (ops : List RBOp) : RBState :=
  ops.foldl rbApply st

/-! ## GoRecover (src/utils/runtime_utils.go, package utils)

`GoRecover(ctx, fn)` launches a goroutine whose body is a `select` over
`<-ctx.Done()` with a `default` case.  Per the Go specification a
`select` with `default` takes `default` only when no other case can
proceed, so a context that is already cancelled deterministically takes
the `ctx.Done()` case and returns before `fn` runs. -/

/-- Branches of `GoRecover`'s initial select. -/
inductive SelBranch
  | done
  | dflt
deriving DecidableEq, Repr

/-- Go `select` with a single communication case and `default`:
deterministic — the communication case wins iff it is ready. -/
def selectWithDefault (ready : Bool) : SelBranch :=
  if ready then .done else .dflt

/-- The goroutine body of `GoRecover`, abstracted over the actions `fn`
would perform: returns whether `fn` was invoked and the actions actually
performed. -/
def goRecoverRun (ctxDone : Bool) (fnActions : List Nat) : Bool × List Nat :=
  match selectWithDefault ctxDone with
  | .done => (false, [])
  | .dflt => (true, fnActions)

/-! ## Concrete inputs used by counterexamples and witnesses -/

/-- Store holding one lock: election `"e"` held by token `"tok"`. -/
def c4store : Store :=
  fun k => if k = lockKeyPref ++ "e" then some ("tok", 5) else none

/-- A run whose context is cancelled while the session is leader and
whose final `send(LostAcquire)` select takes the `ctx.Done()` branch:
the initial `Lock` succeeds with the context live (so `TakenAcquire` is
delivered), then the context is cancelled and the loop's `ctx.Done()`
case fires with `pick = false`. -/
def c1run : ElectRun := ⟨true, ⟨false, true⟩, [.ctxDone true false]⟩

/-- Same cancellation-while-leader shape but with `pick = true` on the
final send: the final `LostAcquire` is delivered. -/
def c1wrun : ElectRun := ⟨true, ⟨false, true⟩, [.ctxDone true true]⟩

/-- A run where the initial `Lock` succeeds but the context is cancelled
before the initial `send(TakenAcquire)`, whose select then takes the
`ctx.Done()` branch (`pick = false`); the loop's `ctx.Done()` case then
delivers the final `LostAcquire` (`pick = true`). -/
def c3run : ElectRun := ⟨true, ⟨true, false⟩, [.ctxDone false true]⟩

/-- A cancellation-free run: acquire at once, then one failed renewal. -/
def c3wrun : ElectRun :=
  ⟨true, ⟨false, false⟩, [.tick false false ⟨false, false⟩]⟩

/-- Job `"alpha"`, and `"beta"` differing from it only in the name. -/
def c5ja : Job := ⟨"alpha", 10, 5, .stopImmediate⟩

/-- See `c5ja`. -/
def c5jb : Job := ⟨"beta", 10, 5, .stopImmediate⟩

/-- An execution whose job function panics with value `"boom"`. -/
def c5in : ExecIn := ⟨false, false, .panicked "boom"⟩

/-- A scheduler that has already started, with no jobs registered. -/
def c7started : SchedState := ⟨true, []⟩

/-- A job configuration used at the started scheduler. -/
def c7cfg : JobConfiguration := ⟨"j", 10, 5, .stopGraceful⟩

/-- The four hooks of the spec's shutdown-ordering scenario, in
registration order: priorities 50, 10, 200, 10 with ids 0,1,2,3. -/
def c2hooks : List SHook :=
  [⟨50, "a", 0⟩, ⟨10, "b", 1⟩, ⟨200, "c", 2⟩, ⟨10, "d", 3⟩]

/-! ## Theorems -/

/-- C4: for every stored lock record and every `Unlock` or
`ExtendLockTTL` call whose token does not equal the currently stored
holder token for that key, the call returns `false` and leaves the
stored lock record unchanged; only the matching-token case can delete
or extend the record. -/
theorem c4_fencing (st : Store) (key value : String) (ttl : Nat)
    (h : holderOf st key ≠ some value) :
    RedisLocker.Unlock st key value = (st, false) ∧
    RedisLocker.ExtendLockTTL st key value ttl = (st, false) := by
  cases hk : st (lockKeyPref ++ key) with
  | none =>
      constructor <;>
        simp [RedisLocker.Unlock, RedisLocker.ExtendLockTTL,
          evalUnlockScript, evalExtendTTLScript, hk]
  | some r =>
      have hv : r.1 ≠ value := by
        intro he
        exact h (by simp [holderOf, hk, he])
      constructor <;>
        simp [RedisLocker.Unlock, RedisLocker.ExtendLockTTL,
          evalUnlockScript, evalExtendTTLScript, hk, hv]

/-- Witness for C4: a store holding token `"tok"` for election `"e"`;
`Unlock`/`ExtendLockTTL` with the non-matching token `"other"` return
`false` and leave the store unchanged. -/
theorem c4_fencing_witness :
    RedisLocker.Unlock c4store "e" "other" = (c4store, false) ∧
    RedisLocker.ExtendLockTTL c4store "e" "other" 7 = (c4store, false) :=
  c4_fencing c4store "e" "other" 7 (by decide)

/-- C8: one run of the shutdown loop drains the hook list completely,
and a second invocation on the drained list executes no hooks. -/
theorem c8_shutdown_not_reentrant (l : List SHook) :
    (shutdownDrain l).1 = [] ∧
    shutdownDrain (shutdownDrain l).1 = ([], []) := by
  have h1 : (shutdownDrain l).1 = [] := by
    induction l with
    | nil => rfl
    | cons h t ih => simpa [shutdownDrain] using ih
  exact ⟨h1, by rw [h1]; rfl⟩

/-- C10: a goroutine launched by `GoRecover` under an already-cancelled
context takes the ready `ctx.Done()` case of its initial
select-with-default and returns without invoking `fn`, so none of the
component's work is performed. -/
theorem c10_goRecover_cancelled (fnActions : List Nat) :
    goRecoverRun true fnActions = (false, []) ∧
    selectWithDefault true = SelBranch.done :=
  ⟨rfl, rfl⟩

/-- C6 (stop-mode context derivation): whenever `exec` reaches the job
function, `StopImmediate` derives the per-execution `WithTimeout`
context from the job's own context — so a cancelled job context makes
the derived context done — while `StopGraceful` derives it from
`context.Background()` — so the derived context is done exactly when
the deadline has elapsed, independent of the job context. -/
theorem c6_stop_mode_contexts (j : Job) (i : ExecIn) (jobCtxDone timedOut : Bool)
    (hinv : (JobScheduler.exec j i).invoked = true) :
    (j.stopMode = StopMode.stopImmediate →
       (JobScheduler.exec j i).derived = some CtxParent.jobCtx ∧
       (jobCtxDone = true → derivedCtxDone CtxParent.jobCtx jobCtxDone timedOut = true)) ∧
    (j.stopMode = StopMode.stopGraceful →
       (JobScheduler.exec j i).derived = some CtxParent.background ∧
       derivedCtxDone CtxParent.background jobCtxDone timedOut = timedOut) := by
  by_cases h1 : i.doneAtEntry
  · simp [JobScheduler.exec, h1] at hinv
  · by_cases h2 : i.errAtRecheck
    · simp [JobScheduler.exec, h1, h2] at hinv
    · cases ho : i.outcome <;> cases hm : j.stopMode <;>
        simp [JobScheduler.exec, h1, h2, ho, hm, derivedCtxDone] <;>
        exact fun h => Or.inl h

/-- Witness for C6: a graceful job reaching its function; the derived
context comes from `context.Background()`. -/
theorem c6_stop_mode_contexts_witness :
    (c5jb.stopMode = StopMode.stopImmediate →
       (JobScheduler.exec c5jb c5in).derived = some CtxParent.jobCtx ∧
       (true = true → derivedCtxDone CtxParent.jobCtx true false = true)) ∧
    (c5jb.stopMode = StopMode.stopGraceful →
       (JobScheduler.exec c5jb c5in).derived = some CtxParent.background ∧
       derivedCtxDone CtxParent.background true false = false) :=
  c6_stop_mode_contexts c5jb c5in true false (by decide)

/-- C5 counterexample: two jobs that differ only in their name produce
the very same returned error for the same recovered panic value — the
error returned by `exec` is `"panic in job: <v>"` and does not carry
the job's name (only the logged report does). -/
theorem c5_counterexample :
    (JobScheduler.exec c5ja c5in).err = (JobScheduler.exec c5jb c5in).err ∧
    c5ja.name ≠ c5jb.name ∧
    (JobScheduler.exec c5ja c5in).err = some "panic in job: boom" ∧
    (JobScheduler.exec c5ja c5in).loggedPanic
      = some "panic in job alpha: boom" := by decide

/-- C5 as amended: a panic in the job function is recovered; `exec`
returns an error carrying the recovered panic value (the job's name
appears only in the logged report, not in the returned error), and the
job's ticking loop continues — the tick after a panicking execution is
processed exactly as it would be otherwise. -/
theorem c5_panic_recovered (j : Job) (i : ExecIn) (v : String) (rest : List RunStep)
    (h1 : i.doneAtEntry = false) (h2 : i.errAtRecheck = false)
    (h3 : i.outcome = FnOutcome.panicked v) :
    (JobScheduler.exec j i).err = some ("panic in job: " ++ v) ∧
    (JobScheduler.exec j i).loggedPanic
      = some ("panic in job " ++ j.name ++ ": " ++ v) ∧
    JobScheduler.run j (RunStep.tick i :: rest)
      = JobScheduler.exec j i :: JobScheduler.run j rest := by
  refine ⟨?_, ?_, rfl⟩ <;> simp [JobScheduler.exec, h1, h2, h3]

/-- Witness for C5 (amended): the `"alpha"` job panicking with
`"boom"`. -/
theorem c5_panic_recovered_witness :
    (JobScheduler.exec c5ja c5in).err = some ("panic in job: " ++ "boom") ∧
    (JobScheduler.exec c5ja c5in).loggedPanic
      = some ("panic in job " ++ c5ja.name ++ ": " ++ "boom") ∧
    JobScheduler.run c5ja (RunStep.tick c5in :: [])
      = JobScheduler.exec c5ja c5in :: JobScheduler.run c5ja [] :=
  c5_panic_recovered c5ja c5in "boom" [] (by decide) (by decide) (by decide)

/-- C7: `Add` fails exactly when the scheduler has started or the name
is already registered; on failure the scheduler state is unchanged, and
on success the job map is exactly the previous map plus the new job
under `cfg.name` (which was previously absent). -/
theorem c7_add_contract (s : SchedState) (cfg : JobConfiguration) :
    ((JobScheduler.Add s cfg).2.isSome = true ↔
       (s.started = true ∨ (s.jobs.lookup cfg.name).isSome = true)) ∧
    ((JobScheduler.Add s cfg).2.isSome = true → (JobScheduler.Add s cfg).1 = s) ∧
    ((JobScheduler.Add s cfg).2 = none →
       (JobScheduler.Add s cfg).1.started = s.started ∧
       s.jobs.lookup cfg.name = none ∧
       (JobScheduler.Add s cfg).1.jobs
         = s.jobs ++ [(cfg.name, ⟨cfg.name, cfg.tick, cfg.deadline, cfg.stopMode⟩)]) := by
  by_cases hs : s.started
  · simp [JobScheduler.Add, hs]
  · by_cases hj : (s.jobs.lookup cfg.name).isSome
    · simp [JobScheduler.Add, hs, hj]
    · have hn : s.jobs.lookup cfg.name = none :=
        Option.not_isSome_iff_eq_none.mp hj
      simp [JobScheduler.Add, hs, hj, hn]

/-- Witness for C7: adding to an already-started scheduler errors and
leaves the state unchanged. -/
theorem c7_add_contract_witness :
    (JobScheduler.Add c7started c7cfg).1 = c7started :=
  (c7_add_contract c7started c7cfg).2.1 (by decide)

theorem insertShutdownRest_sorted (n : SHook) :
    ∀ (l : List SHook) (a : SHook),
      sortedByPriority (a :: l) = true → a.priority ≤ n.priority →
      sortedByPriority (a :: insertShutdownRest n l) = true := by
  intro l
  induction l with
  | nil =>
      intro a _ han
      simp [insertShutdownRest, sortedByPriority, han]
  | cons h t ih =>
      intro a hs han
      have hah : a.priority ≤ h.priority := by
        have := hs
        simp [sortedByPriority] at this
        exact this.1
      have hht : sortedByPriority (h :: t) = true := by
        have := hs
        simp [sortedByPriority] at this
        exact this.2
      by_cases hhn : h.priority ≤ n.priority
      · have := ih h hht hhn
        simp [insertShutdownRest, hhn, sortedByPriority, hah, this]
      · have hnh : n.priority ≤ h.priority := le_of_not_le hhn
        simp [insertShutdownRest, hhn, sortedByPriority, han, hnh, hht]

theorem insertShutdown_sorted (n : SHook) (l : List SHook)
    (hs : sortedByPriority l = true) :
    sortedByPriority (insertShutdown n l) = true := by
  cases l with
  | nil => simp [insertShutdown, sortedByPriority]
  | cons h t =>
      by_cases hgt : h.priority > n.priority
      · have hnh : n.priority ≤ h.priority := le_of_lt hgt
        simp [insertShutdown, hgt, sortedByPriority, hnh, hs]
      · have hhn : h.priority ≤ n.priority := le_of_not_lt hgt
        have := insertShutdownRest_sorted n t h hs hhn
        simpa [insertShutdown, hgt] using this

theorem insertShutdownRest_split (n : SHook) (l : List SHook) :
    insertShutdownRest n l
      = l.takeWhile (fun s => decide (s.priority ≤ n.priority)) ++
        n :: l.dropWhile (fun s => decide (s.priority ≤ n.priority)) := by
  induction l with
  | nil => rfl
  | cons h t ih =>
      by_cases hhn : h.priority ≤ n.priority
      · simp [insertShutdownRest, hhn, List.takeWhile_cons, List.dropWhile_cons, ih]
      · simp [insertShutdownRest, hhn, List.takeWhile_cons, List.dropWhile_cons]

/-- C2: (i) `RegisterShutdown` keeps the hook list sorted by ascending
priority; (ii) the new node is always placed after every existing node
of priority `≤` its own and before all others — so equal-priority
entries stay in insertion order; (iii) registering hooks with
priorities `[50, 10, 200, 10]` (ids 0,1,2,3 in registration order) and
then draining executes them in the order `[1, 3, 0, 2]`: the
first-registered priority-10 hook, the second-registered priority-10
hook, the priority-50 hook, then the priority-200 hook. -/
theorem c2_shutdown_ordering :
    (∀ (n : SHook) (l : List SHook), sortedByPriority l = true →
       sortedByPriority (insertShutdown n l) = true) ∧
    (∀ (n : SHook) (l : List SHook),
       insertShutdown n l
         = l.takeWhile (fun s => decide (s.priority ≤ n.priority)) ++
           n :: l.dropWhile (fun s => decide (s.priority ≤ n.priority))) ∧
    (shutdownDrain (c2hooks.foldl (fun acc h => insertShutdown h acc) [])).2
      = [1, 3, 0, 2] := by
  refine ⟨insertShutdown_sorted, ?_, by decide⟩
  intro n l
  cases l with
  | nil => rfl
  | cons h t =>
      by_cases hgt : h.priority > n.priority
      · have : ¬ h.priority ≤ n.priority := not_le_of_lt hgt
        simp [insertShutdown, hgt, List.takeWhile_cons, List.dropWhile_cons, this]
      · have hhn : h.priority ≤ n.priority := le_of_not_lt hgt
        simp [insertShutdown, hgt, List.takeWhile_cons, List.dropWhile_cons, hhn,
          insertShutdownRest_split]

/-- Witness for C2: inserting a priority-10 hook into the sorted list
`[10(id 1), 50(id 0)]` keeps it sorted. -/
theorem c2_shutdown_ordering_witness :
    sortedByPriority (insertShutdown ⟨10, "d", 3⟩ [⟨10, "b", 1⟩, ⟨50, "a", 0⟩]) = true :=
  c2_shutdown_ordering.1 ⟨10, "d", 3⟩ [⟨10, "b", 1⟩, ⟨50, "a", 0⟩] (by decide)

theorem rbApply_inv (st : RBState) (op : RBOp)
    (h : st.running = false → st.ready = false ∧ st.queue = []) :
    (rbApply st op).running = false →
      (rbApply st op).ready = false ∧ (rbApply st op).queue = [] := by
  intro hc
  by_cases hr : st.running
  · cases op with
    | start => simp [rbApply, rbStart, hr] at hc
    | stop => simp [rbApply, rbStop, hr]
    | send sig =>
        by_cases hq : st.queue.length < 4 <;>
          simp [rbApply, rbSendSignal, hr, hq] at hc
    | listen =>
        cases hqq : st.queue with
        | nil => simp [rbApply, rbListen, hr, hqq] at hc
        | cons sig rest =>
            cases sig <;> simp [rbApply, rbListen, hr, hqq] at hc
  · cases op with
    | start => simp [rbApply, rbStart, hr] at hc
    | stop =>
        simp [rbApply, rbStop, hr]
        exact h (by simpa using hr)
    | send sig =>
        simp [rbApply, rbSendSignal, hr]
        exact h (by simpa using hr)
    | listen =>
        simp [rbApply, rbListen, hr]
        exact h (by simpa using hr)

theorem rbRun_inv (ops : List RBOp) :
    ∀ st : RBState,
      (st.running = false → st.ready = false ∧ st.queue = []) →
      ((rbRun st ops).running = false →
        (rbRun st ops).ready = false ∧ (rbRun st ops).queue = []) := by
  induction ops with
  | nil => intro st h; simpa [rbRun] using h
  | cons op rest ih =>
      intro st h
      have := ih (rbApply st op) (rbApply_inv st op h)
      simpa [rbRun, List.foldl_cons] using this

/-- C9: for every reachable barrier state, after `Stop()` the signal
buffer holds no unconsumed signals and `IsReady()` returns false; and
`Stop()` on a barrier that is not running is a no-op, leaving the
readiness flag (and the rest of the state) unchanged. -/
theorem c9_stop_resets (ops : List RBOp) :
    (rbStop (rbRun RBState.init ops)).queue = [] ∧
    rbIsReady (rbStop (rbRun RBState.init ops)) = false ∧
    ((rbRun RBState.init ops).running = false →
      rbStop (rbRun RBState.init ops) = rbRun RBState.init ops) := by
  have hinv := rbRun_inv ops RBState.init (by intro; exact ⟨rfl, rfl⟩)
  by_cases hr : (rbRun RBState.init ops).running
  · refine ⟨?_, ?_, ?_⟩ <;> simp [rbStop, rbIsReady, hr]
  · have h := hinv (by simpa using hr)
    refine ⟨?_, ?_, ?_⟩ <;> simp [rbStop, rbIsReady, hr, h.1, h.2]

/-- Witness for C9: `Stop()` right after `Start(); SendSignal(Ready);`
one listener step (flag now true) resets the flag and empties the
buffer; and on the never-started barrier `Stop()` is a no-op. -/
theorem c9_stop_resets_witness :
    rbIsReady (rbStop (rbRun RBState.init
      [RBOp.start, RBOp.send ToggleSignal.readyToggle, RBOp.listen])) = false ∧
    rbStop (rbRun RBState.init []) = rbRun RBState.init [] :=
  ⟨(c9_stop_resets [RBOp.start, RBOp.send ToggleSignal.readyToggle, RBOp.listen]).2.1,
   (c9_stop_resets []).2.2 (by decide)⟩

theorem electStep_closed_fix (st : ElectState) (s : ElectStep)
    (h : st.closed = true) : electStep st s = st := by
  simp [electStep, h]

theorem foldl_electStep_closed (st : ElectState) (l : List ElectStep)
    (h : st.closed = true) : List.foldl electStep st l = st := by
  induction l with
  | nil => rfl
  | cons s t ih => rw [List.foldl_cons, electStep_closed_fix st s h]; exact ih

theorem electValidFrom_append (st : ElectState) (pre rest : List ElectStep)
    (h : electValidFrom st (pre ++ rest) = true) :
    electValidFrom (List.foldl electStep st pre) rest = true := by
  induction pre generalizing st with
  | nil => simpa using h
  | cons s t ih =>
      rw [List.cons_append] at h
      have h2 : electValidFrom (electStep st s) (t ++ rest) = true := by
        simp [electValidFrom, Bool.and_eq_true] at h
        exact h.2
      simpa [List.foldl_cons] using ih (electStep st s) h2

theorem electStep_ctxDone_leader (st : ElectState) (cancelNow pick : Bool)
    (hc : st.closed = false) (hl : st.isLeader = true)
    (hd : (st.ctxDone || cancelNow) = true) :
    electStep st (ElectStep.ctxDone cancelNow pick)
      = { isLeader := false, ctxDone := true,
          events := if pick then st.events ++ [WEvent.lostAcquire] else st.events,
          unlocks := st.unlocks + 1, closed := true } := by
  cases pick <;> simp [electStep, hc, hl, electSend, hd]

/-- C1 (amended): for every election whose context is cancelled while
the session is in the `Leader` state (a `ctx.Done()` iteration fires
with `isLeader` set), the watchdog goroutine synchronously calls
`Unlock` on the lock and then closes the watcher channel before
exiting; the final `LostAcquire` event is delivered exactly when the
final `send`'s select — whose `ctx.Done()` case is necessarily ready —
picks the channel-send branch, so its delivery is best-effort. -/
theorem c1_cancel_while_leader (r : ElectRun) (pre post : List ElectStep)
    (cancelNow pick : Bool)
    (hsteps : r.steps = pre ++ ElectStep.ctxDone cancelNow pick :: post)
    (hvalid : electValid r = true)
    (hleader : (List.foldl electStep (electInit r) pre).isLeader = true)
    (hopen : (List.foldl electStep (electInit r) pre).closed = false) :
    (electExec r).closed = true ∧
    (electExec r).unlocks = (List.foldl electStep (electInit r) pre).unlocks + 1 ∧
    (pick = true →
      (electExec r).events
        = (List.foldl electStep (electInit r) pre).events ++ [WEvent.lostAcquire]) ∧
    (pick = false →
      (electExec r).events = (List.foldl electStep (electInit r) pre).events) := by
  have hv1 : electValidFrom (List.foldl electStep (electInit r) pre)
      (ElectStep.ctxDone cancelNow pick :: post) = true := by
    have hv := hvalid
    unfold electValid at hv
    rw [hsteps] at hv
    exact electValidFrom_append (electInit r) pre _ hv
  have hd : ((List.foldl electStep (electInit r) pre).ctxDone || cancelNow) = true := by
    simp [electValidFrom, Bool.and_eq_true] at hv1
    rw [Bool.or_eq_true]
    exact hv1.1
  have hstep := electStep_ctxDone_leader (List.foldl electStep (electInit r) pre)
    cancelNow pick hopen hleader hd
  have hexec : electExec r
      = List.foldl electStep
          (electStep (List.foldl electStep (electInit r) pre)
            (ElectStep.ctxDone cancelNow pick)) post := by
    simp only [electExec, hsteps, List.foldl_append, List.foldl_cons]
  have hcl : (electStep (List.foldl electStep (electInit r) pre)
      (ElectStep.ctxDone cancelNow pick)).closed = true := by
    rw [hstep]
  have hfix := foldl_electStep_closed _ post hcl
  rw [hexec, hfix, hstep]
  refine ⟨rfl, rfl, ?_, ?_⟩ <;> intro hp <;> simp [hp]

/-- Witness for C1 (amended): a run that acquires leadership and is
then cancelled, with the final send's select taking the channel branch:
`Unlock` runs, the final `LostAcquire` is delivered, and the channel is
closed. -/
theorem c1_cancel_while_leader_witness :
    (electExec c1wrun).closed = true ∧
    (electExec c1wrun).unlocks
      = (List.foldl electStep (electInit c1wrun) []).unlocks + 1 ∧
    (true = true →
      (electExec c1wrun).events
        = (List.foldl electStep (electInit c1wrun) []).events ++ [WEvent.lostAcquire]) ∧
    (true = false →
      (electExec c1wrun).events = (List.foldl electStep (electInit c1wrun) []).events) :=
  c1_cancel_while_leader c1wrun [] [] true true rfl (by decide) (by decide) (by decide)

/-- C1 counterexample: in run `c1run` the context is cancelled while
the session is leader (the pre-state of the `ctx.Done()` iteration has
`isLeader = true`), the schedule is valid, `Unlock` runs and the
channel is closed — yet no `LostAcquire` event is ever delivered: the
final `send`'s select took the ready `ctx.Done()` branch.  The claim's
"emits a final LostAcquire ... before exiting" is therefore false. -/
theorem c1_counterexample :
    electValid c1run = true ∧
    (electInit c1run).isLeader = true ∧
    (electExec c1run).closed = true ∧
    (electExec c1run).unlocks = 1 ∧
    WEvent.lostAcquire ∉ (electExec c1run).events := by decide

theorem flipW_flipW (e : WEvent) : flipW (flipW e) = e := by
  cases e <;> rfl

theorem altFrom_snoc (l : List WEvent) :
    ∀ (e x : WEvent), altFrom e l = true →
      altFrom e (l ++ [x])
        = (x == (if l.length % 2 == 0 then e else flipW e)) := by
  induction l with
  | nil =>
      intro e x _
      simp [altFrom]
  | cons y t ih =>
      intro e x h
      rw [show altFrom e (y :: t) = ((y == e) && altFrom (flipW e) t) from rfl,
        Bool.and_eq_true] at h
      obtain ⟨hy, ht⟩ := h
      have hih := ih (flipW e) x ht
      rcases Nat.mod_two_eq_zero_or_one t.length with hp | hp
      · have hp1 : (t.length + 1) % 2 = 1 := by omega
        simp [altFrom, hy, hih, hp, hp1, flipW_flipW, List.length_cons]
      · have hp1 : (t.length + 1) % 2 = 0 := by omega
        simp [altFrom, hy, hih, hp, hp1, flipW_flipW, List.length_cons]

/-- Invariant of a cancellation-free watchdog run: the delivered events
alternate starting with `TakenAcquire`, the leadership flag matches the
parity of the number of delivered events, and the context is live. -/
def electAltInv (st : ElectState) : Prop :=
  altFrom WEvent.takenAcquire st.events = true ∧
  st.isLeader = (st.events.length % 2 == 1) ∧
  st.ctxDone = false

theorem electAltInv_tick (st : ElectState) (lockOk pick : Bool)
    (h : electAltInv st) :
    electAltInv (electStep st (ElectStep.tick false lockOk ⟨false, pick⟩)) := by
  obtain ⟨ha, hl, hd⟩ := h
  by_cases hc : st.closed
  · rw [electStep_closed_fix st _ hc]
    exact ⟨ha, hl, hd⟩
  · by_cases hlead : st.isLeader
    · have hlen : st.events.length % 2 = 1 := by
        rw [hlead] at hl
        simpa using hl.symm
      by_cases hok : lockOk
      · simp [electStep, hc, hlead, hok, electAltInv, ha, hl, hd, hlen]
      · have hsnoc := altFrom_snoc st.events WEvent.takenAcquire WEvent.lostAcquire ha
        have hlen1 : (st.events.length + 1) % 2 = 0 := by omega
        simp [electStep, hc, hlead, hok, electSend, hd, electAltInv, hsnoc, hlen,
          flipW, hlen1]
    · have hlen : st.events.length % 2 = 0 := by
        rw [Bool.not_eq_true] at hlead
        rw [hlead] at hl
        have h2 := hl.symm
        simp at h2
        omega
      by_cases hok : lockOk
      · have hsnoc := altFrom_snoc st.events WEvent.takenAcquire WEvent.takenAcquire ha
        have hlen1 : (st.events.length + 1) % 2 = 1 := by omega
        simp [electStep, hc, hlead, hok, electSend, hd, electAltInv, hsnoc, hlen,
          hlen1]
      · simp [electStep, hc, hlead, hok, electAltInv, ha, hl, hd, hlen]

theorem electAltInv_foldl (steps : List ElectStep) :
    ∀ st : ElectState, electAltInv st →
      (∀ s ∈ steps, ∃ lockOk pick, s = ElectStep.tick false lockOk ⟨false, pick⟩) →
      electAltInv (List.foldl electStep st steps) := by
  induction steps with
  | nil => intro st h _; simpa using h
  | cons s t ih =>
      intro st h hall
      obtain ⟨lockOk, pick, rfl⟩ := hall _ (List.mem_cons_self s t)
      have hrest : ∀ x ∈ t, ∃ lockOk pick, x = ElectStep.tick false lockOk ⟨false, pick⟩ :=
        fun x hx => hall x (List.mem_cons_of_mem _ hx)
      simpa [List.foldl_cons] using
        ih (electStep st (ElectStep.tick false lockOk ⟨false, pick⟩))
          (electAltInv_tick st lockOk pick h) hrest

/-- C3 (amended): provided the election's context is never cancelled
during the run, the sequence of events delivered on the watcher channel
strictly alternates `TakenAcquire, LostAcquire, TakenAcquire, …`,
starting with `TakenAcquire`, with no two consecutive identical
events.  (Cancellation can drop events — see the counterexample — since
a `send` whose `ctx.Done()` case is ready may skip delivery.) -/
theorem c3_alternation (r : ElectRun) (h : electNoCancel r = true) :
    altFrom WEvent.takenAcquire (electExec r).events = true := by
  unfold electNoCancel at h
  rw [Bool.and_eq_true] at h
  obtain ⟨hinit, hall⟩ := h
  rw [List.all_eq_true] at hall
  have hcn : r.initSend.cancelNow = false := by simpa using hinit
  have hinv0 : electAltInv (electInit r) := by
    by_cases hok : r.initLockOk <;>
      simp [electInit, hok, electSend, hcn, electAltInv, altFrom, flipW]
  have hsteps : ∀ s ∈ r.steps, ∃ lockOk pick, s = ElectStep.tick false lockOk ⟨false, pick⟩ := by
    intro s hs
    have hp := hall s hs
    cases s with
    | ctxDone a b => simp at hp
    | tick c lockOk o =>
        cases o with
        | mk cn pk =>
            simp [Bool.and_eq_true] at hp
            exact ⟨lockOk, pk, by simp [hp.1, hp.2]⟩
  exact (electAltInv_foldl r.steps (electInit r) hinv0 hsteps).1

/-- Witness for C3 (amended): acquire at once, then lose the lease on a
failed renewal — the delivered sequence `[TakenAcquire, LostAcquire]`
alternates. -/
theorem c3_alternation_witness :
    altFrom WEvent.takenAcquire (electExec c3wrun).events = true :=
  c3_alternation c3wrun (by decide)

/-- C3 counterexample: a valid run in which the context is cancelled
between the successful initial `Lock` and the initial
`send(TakenAcquire)`, whose select then skips delivery; the final
`send(LostAcquire)` delivers.  The delivered sequence is
`[LostAcquire]`: it does not start with `TakenAcquire`, refuting the
claim for the sequence actually delivered. -/
theorem c3_counterexample :
    electValid c3run = true ∧
    (electExec c3run).events = [WEvent.lostAcquire] ∧
    altFrom WEvent.takenAcquire (electExec c3run).events = false := by decide

end Kernel
